import Mathlib

/-!
Verification development for the NovaBrew crisis dashboard client
(`src/dashboard/src/App.js`).  The client-side state reconciliation,
log-text response parsing and derived-view logic of the dashboard are
shallowly embedded as executable Lean definitions, and the documented
behavioural properties are proved (or refuted) against them.

Conventions of the embedding:
* JavaScript strings are Lean `String`s; per-character work happens on
  `List Char` (`String.data`).
* A JS field that may be `undefined`/`null` is an `Option`.
* JS truthiness of a string (`""` and absent are falsy) is made explicit
  at each use site.
* React state cells become fields of an explicit `AppState` record, and
  every state-updating code path becomes a pure state-transition
  function.  Network results consumed by a code path are passed in as
  explicit inputs (`none` for a failed fetch where the code swallows the
  failure).
-/

/- ═══════════════ Character classes and string helpers (JS semantics) ═══════════════ -/

/-- ASCII whitespace recognised by the JS `\s` class and `String.prototype.trim`
(the inputs here are ASCII log text). -/
def jsWhitespace (c : Char) : Bool :=
  c = ' ' || c = '\t' || c = '\n' || c = '\r' || c = '\x0c' || c = '\x0b'

/-- The JS `\d` class. -/
def jsDigit (c : Char) : Bool :=
  '0' ≤ c && c ≤ '9'

/-- The JS `\w` class (the regex char class `[\w_]` is the same set). -/
def jsWordChar (c : Char) : Bool :=
  ('a' ≤ c && c ≤ 'z') || ('A' ≤ c && c ≤ 'Z') || ('0' ≤ c && c ≤ '9') || c = '_'

/-- JS `String.prototype.trim` on a line (as a char list): strip leading and
trailing whitespace. -/
def jsTrim (l : List Char) : List Char :=
  ((l.dropWhile jsWhitespace).reverse.dropWhile jsWhitespace).reverse

/-- Embedding of `txt.split("\n")` on the underlying char list; like JS, an empty text
yields one empty line and separators delimit (possibly empty) fields. -/
def splitNL : List Char → List (List Char)
  | [] => [[]]
  | c :: rest =>
    let r := splitNL rest
    if c = '\n' then [] :: r
    else
      match r with
      | [] => [[c]]
      | l :: ls => (c :: l) :: ls

/- ═══════════════ Data model ═══════════════ -/

/-- A drafted-reply record recovered from the free-text log
(`parseResponses` output shape `{id, user, text}`). -/
structure RespRec where
  id : String
  user : String
  text : String
  deriving Repr, DecidableEq

/-- A social post delivered on the `tweet` stream (fields the client reads;
counts and wave may be absent in the JSON payload). -/
structure Post where
  user : String
  text : String
  likes : Option Nat
  retweets : Option Nat
  wave : Option Nat
  deriving Repr, DecidableEq

/-- An agent-log event from `GET /events`. -/
structure Event where
  id : Nat
  agent : String
  type : String
  message : String
  deriving Repr, DecidableEq

/-- The `severity` sub-record of a decisions snapshot (`level` may be absent). -/
structure SevRec where
  level : Option String
  reasoning : Option String
  deriving Repr, DecidableEq

/-- The `recommendation` sub-record of a decisions snapshot (`status` may be absent). -/
structure RecRec where
  status : Option String
  reason : Option String
  deriving Repr, DecidableEq

/-- The decisions snapshot from `GET /decisions`; each sub-record is optional. -/
structure Decisions where
  severity : Option SevRec
  recommendation : Option RecRec
  deriving Repr, DecidableEq

/-- The `stats` state cell `{ tweets, reach, responses }`. -/
structure Stats where
  tweets : Nat
  reach : Nat
  responses : Nat
  deriving Repr, DecidableEq

/-- The client state cells of `App` that the verified logic touches. -/
structure AppState where
  status : String
  tweets : List Post
  wave : Nat
  events : List Event
  severity : String
  responses : List RespRec
  decisions : Option Decisions
  recommendation : Option String
  stats : Stats
  deriving Repr, DecidableEq

/- ═══════════════ Log-text response parser (`parseResponses`) ═══════════════ -/

/-- Attempt the tail of the regex `/TWEET\s*(\d+)\s*\((@[\w_]+)\):\s*(.+)/`
immediately after a literal `TWEET`: greedy `\s*`, one or more digits,
greedy `\s*`, then `(@`, one or more word chars, `):`, and a non-empty
remainder whose trimmed form is the captured text (the `\s*(.+)` suffix
with the final `.trim()` applied by the caller collapses to trimming the
remainder, which must be non-empty for `.+` to match). -/
def matchAfterTweet (cs : List Char) : Option RespRec :=
  let cs1 := cs.dropWhile jsWhitespace
  let ds := cs1.takeWhile jsDigit
  let cs2 := cs1.dropWhile jsDigit
  if ds.isEmpty then none
  else
    match cs2.dropWhile jsWhitespace with
    | '(' :: '@' :: cs4 =>
      let ws := cs4.takeWhile jsWordChar
      match cs4.dropWhile jsWordChar with
      | ')' :: ':' :: cs6 =>
        if ws.isEmpty then none
        else if cs6.isEmpty then none
        else some ⟨String.mk ds, String.mk ('@' :: ws), String.mk (jsTrim cs6)⟩
      | _ => none
    | _ => none

/-- Embedding of `l.match(/TWEET\s*(\d+)\s*\((@[\w_]+)\):\s*(.+)/)`: an unanchored scan —
try every start position left to right; a position matches when the literal
`TWEET` occurs there and the rest of the pattern succeeds after it. -/
def findTweetMatch : List Char → Option RespRec
  | [] => none
  | c :: rest =>
    if ("TWEET".data).isPrefixOf (c :: rest) then
      match matchAfterTweet ((c :: rest).drop 5) with
      | some r => some r
      | none => findTweetMatch rest
    else findTweetMatch rest

/-- Embedding of `parseResponses(txt)` from `App.js`: return `[]` for falsy input; split
into lines; keep lines whose trimmed content starts with `TWEET`; regex-match
each kept (untrimmed) line; drop the non-matches. -/
def parseResponses (txt : String) : List RespRec :=
  if txt = "" then []
  else
    ((splitNL txt.data).filter
        (fun l => ("TWEET".data).isPrefixOf (jsTrim l))).map findTweetMatch
      |>.filterMap id

/-- Per-line record extraction: the composite filter/match/filter pipeline of
`parseResponses`, expressed as one function of a line. -/
def lineRecord (l : List Char) : Option RespRec :=
  if ("TWEET".data).isPrefixOf (jsTrim l) then findTweetMatch l else none

/-- Anchored variant of the line match: the pattern is required to succeed at
the very start of the line (used to exhibit that the real match is unanchored). -/
def anchoredTweetMatch (l : List Char) : Option RespRec :=
  if ("TWEET".data).isPrefixOf l then matchAfterTweet (l.drop 5) else none

example : parseResponses "TWEET 12 (@foo_bar): Thanks for reaching out" =
    [⟨"12", "@foo_bar", "Thanks for reaching out"⟩] := by decide

example : parseResponses "tweet 12 (@foo_bar): Thanks for reaching out" = [] := by decide

example : parseResponses "TWEET 12 @foo_bar: Thanks for reaching out" = [] := by decide

example : parseResponses "TWEET log: TWEET 7 (@bob): hi" = [⟨"7", "@bob", "hi"⟩] := by
  decide

/- ═══════════════ Stream reconciler (`connectStream` and the `tweet` handler) ═══════════════ -/

/-- JS `post.wave || 1`: `0` and an absent field are falsy. -/
def waveOr1 (w : Option Nat) : Nat :=
  match w with
  | some n => if n = 0 then 1 else n
  | none => 1

/-- Engagement of one post as the stream handler counts it:
`(post.likes || 0) + (post.retweets || 0)`. -/
def postEngagement (p : Post) : Nat :=
  p.likes.getD 0 + p.retweets.getD 0

/-- Embedding of `connectStream()`: close any previous stream, clear the post list, reset
the wave, and zero the `tweets` and `reach` counters (the spread keeps
`responses`). -/
def connectStream (s : AppState) : AppState :=
  { s with tweets := [], wave := 1,
           stats := { s.stats with tweets := 0, reach := 0 } }

/-- The `tweet` stream-event handler: append the post, track its wave, and
bump the post and reach counters. -/
def onTweet (p : Post) (s : AppState) : AppState :=
  { s with tweets := s.tweets ++ [p],
           wave := waveOr1 p.wave,
           stats := { s.stats with
                        tweets := s.stats.tweets + 1,
                        reach := s.stats.reach + postEngagement p } }

/-- Deliver a sequence of stream posts in order. -/
def deliverPosts (ps : List Post) (s : AppState) : AppState :=
  ps.foldl (fun st p => onTweet p st) s

/- ═══════════════ Decisions fetch handling inside `poll` ═══════════════ -/

/-- Apply a successfully fetched decisions snapshot: store it wholesale, and
overwrite `severity` / `recommendation` only when the corresponding optional
field is truthy (`dec.severity?.level`, `dec.recommendation?.status`). -/
def applyDecisions (dec : Decisions) (s : AppState) : AppState :=
  let s1 := { s with decisions := some dec }
  let s2 :=
    match dec.severity with
    | some sv =>
      match sv.level with
      | some l => if l ≠ "" then { s1 with severity := l } else s1
      | none => s1
    | none => s1
  match dec.recommendation with
  | some rc =>
    match rc.status with
    | some st => if st ≠ "" then { s2 with recommendation := some st } else s2
    | none => s2
  | none => s2

/-- The best-effort decisions fetch (`try { ... } catch (_) {}`): a failed
fetch (`none`) changes nothing. -/
def pollDecisionsStep (r : Option Decisions) (s : AppState) : AppState :=
  match r with
  | some dec => applyDecisions dec s
  | none => s

/-- The truthy severity level of a snapshot, when present and non-empty. -/
def sevLevelTruthy (dec : Decisions) : Option String :=
  match dec.severity with
  | some sv =>
    match sv.level with
    | some l => if l = "" then none else some l
    | none => none
  | none => none

/-- The truthy recommendation status of a snapshot, when present and non-empty. -/
def recStatusTruthy (dec : Decisions) : Option String :=
  match dec.recommendation with
  | some rc =>
    match rc.status with
    | some st => if st = "" then none else some st
    | none => none
  | none => none

/- ═══════════════ The poll routine ═══════════════ -/

/-- A run status is terminal when it stops the polling loop. -/
def isTerminal (st : String) : Bool :=
  st = "completed" || st = "error"

/-- The network results one invocation of `poll` consumes: the fetched event
list and run status, the first best-effort decisions fetch (`none` = failed),
and — used only on the `completed` path — the log blob and the second
best-effort decisions fetch. -/
structure PollEnv where
  events : List Event
  status : String
  dec1 : Option Decisions
  logs : String
  dec2 : Option Decisions
  deriving Repr, DecidableEq

/-- Side effects of one `poll` invocation that the temporal claims count:
whether `clearInterval` was called, whether `GET /logs` was issued, and
whether `POST /inject-crisis/2` was issued. -/
structure PollEffects where
  clearedInterval : Bool
  fetchedLog : Bool
  injectedWave2 : Bool
  deriving Repr, DecidableEq

/-- One invocation of `poll()`: replace the event list, best-effort apply the
decisions fetch, then — when the fetched status is terminal — record the
status and clear the interval, and on `completed` additionally fetch and
parse the log, overwrite the responses list and counter, re-fetch decisions
best-effort, and request the wave-2 injection. -/
def poll (env : PollEnv) (s : AppState) : AppState × PollEffects :=
  let s1 := { s with events := env.events }
  let s2 := pollDecisionsStep env.dec1 s1
  if isTerminal env.status then
    let s3 := { s2 with status := env.status }
    if env.status = "completed" then
      let parsed := parseResponses env.logs
      let s4 := { s3 with responses := parsed,
                          stats := { s3.stats with responses := parsed.length } }
      let s5 := pollDecisionsStep env.dec2 s4
      (s5, ⟨true, true, true⟩)
    else
      (s3, ⟨true, false, false⟩)
  else
    (s2, ⟨false, false, false⟩)

/-- Run a sequence of `poll` invocations, collecting each invocation's
effects. -/
def pollTrace (envs : List PollEnv) (s : AppState) : AppState × List PollEffects :=
  match envs with
  | [] => (s, [])
  | e :: rest =>
    let p := poll e s
    let t := pollTrace rest p.1
    (t.1, p.2 :: t.2)

/-- Number of `clearInterval` calls over a trace. -/
def countClears (es : List PollEffects) : Nat :=
  es.countP (·.clearedInterval)

/-- Number of `GET /logs` fetches over a trace. -/
def countLogFetches (es : List PollEffects) : Nat :=
  es.countP (·.fetchedLog)

/-- Number of `POST /inject-crisis/2` requests over a trace. -/
def countInjects (es : List PollEffects) : Nat :=
  es.countP (·.injectedWave2)

/-- The status sequences a completed-or-errored run can present to the poll
invocations: some non-terminal observations (interval ticks while the crew
runs), then one terminal status observed by one or two invocations — two when
an interval tick reaches the terminal status and the explicit poll performed
after `POST /run` resolves observes it again; the backend status stays at its
terminal value once reached. -/
def AdmissibleStatuses (sts : List String) : Prop :=
  ∃ pre m t, (∀ x ∈ pre, isTerminal x = false) ∧ isTerminal t = true ∧
    1 ≤ m ∧ m ≤ 2 ∧ sts = pre ++ List.replicate m t

/- ═══════════════ Run trigger and reset ═══════════════ -/

/-- The synchronous prefix of `handleRun()`: the state resets it performs
before the run request is issued and before any fetched data can arrive
(`stats` is untouched here). -/
def handleRunReset (s : AppState) : AppState :=
  { s with events := [], responses := [], recommendation := none,
           decisions := none, severity := "IDLE", status := "running" }

/- ═══════════════ Derived views ═══════════════ -/

/-- Agents named by `agent_complete` events (`completedAgents` in
`PipelineTracker`). -/
def completedAgents (events : List Event) : List String :=
  (events.filter (fun e => e.type = "agent_complete")).map (·.agent)

/-- The agent of the most recent `agent_start` event
(`events.filter(...).slice(-1)[0]?.agent`). -/
def activeAgent (events : List Event) : Option String :=
  ((events.filter (fun e => e.type = "agent_start")).map (·.agent)).getLast?

/-- Display state of one pipeline node. -/
inductive StageState where
  | done
  | active
  | pending
  deriving Repr, DecidableEq

/-- The class cascade of a `PipelineTracker` node: `done` when a completion
event names the stage's agent, else `active` when that agent is the most
recently started one and the crew is running, else `pending`. -/
def stageState (events : List Event) (crewStatus : String) (agent : String) : StageState :=
  if (completedAgents events).contains agent then .done
  else if activeAgent events = some agent ∧ crewStatus = "running" then .active
  else .pending

/-- Banner payload of `REC_CFG` (display strings). -/
structure BannerCfg where
  color : String
  icon : String
  text : String
  deriving Repr, DecidableEq

/-- The static `REC_CFG` lookup table. -/
def REC_CFG (k : String) : Option BannerCfg :=
  if k = "ESCALATE" then
    some ⟨"#ef4444", "🚨", "ESCALATE — HUMAN PR TEAM REQUIRED IMMEDIATELY"⟩
  else if k = "FOLLOW UP" then
    some ⟨"#f59e0b", "⏰", "FOLLOW UP — SECOND RESPONSE NEEDED IN 30 MIN"⟩
  else if k = "RESOLVED" then
    some ⟨"#22c55e", "✅", "RESOLVED — CRISIS CONTAINED, MONITOR PASSIVELY"⟩
  else none

/-- Embedding of `recommendation ? REC_CFG[recommendation] : null`; the banner is rendered
exactly when the result is non-null. -/
def recCfg (recommendation : Option String) : Option BannerCfg :=
  match recommendation with
  | some r => if r = "" then none else REC_CFG r
  | none => none

/-- The `responseMap` keyed lookup: `responses.forEach(r => map[r.user] = r.text)`
then `map[u]` — later assignments to the same key overwrite earlier ones. -/
def responseMap (rs : List RespRec) (u : String) : Option String :=
  rs.foldl (fun acc r => if r.user = u then some r.text else acc) none

/-- The effects of one `poll` invocation, as a function of the observed
status alone. -/
def effectsOfStatus (st : String) : PollEffects :=
  if isTerminal st then
    if st = "completed" then ⟨true, true, true⟩ else ⟨true, false, false⟩
  else ⟨false, false, false⟩

/- ═══════════════ Sample values used by concrete witnesses ═══════════════ -/

/-- The initial client state (`useState` initialisers of `App`). -/
def initState : AppState :=
  ⟨"idle", [], 1, [], "IDLE", [], none, none, ⟨0, 0, 0⟩⟩

/-- A mid-run client state with non-trivial prior values. -/
def midState : AppState :=
  ⟨"running", [], 1, [], "MODERATE", [⟨"9", "@x", "old"⟩], none, some "RESOLVED",
    ⟨2, 180, 5⟩⟩

/-- A start event for the Monitor agent. -/
def evStartMon : Event := ⟨1, "Social Media Monitor", "agent_start", "starting"⟩

/-- A completion event for the Monitor agent. -/
def evDoneMon : Event := ⟨2, "Social Media Monitor", "agent_complete", "finished"⟩

/-- A poll observation taken while the crew is still running. -/
def envRunning : PollEnv := ⟨[], "running", none, "", none⟩

/-- A poll observation taken after the crew finished (all fetches succeed). -/
def envDone : PollEnv := ⟨[], "completed", none, "TWEET 1 (@a): ok", none⟩

/- ═══════════════ Helper lemmas ═══════════════ -/

theorem applyDecisions_fields (dec : Decisions) (s : AppState) :
    (applyDecisions dec s).status = s.status ∧
    (applyDecisions dec s).stats = s.stats ∧
    (applyDecisions dec s).events = s.events ∧
    (applyDecisions dec s).responses = s.responses ∧
    (applyDecisions dec s).severity = (sevLevelTruthy dec).getD s.severity ∧
    (applyDecisions dec s).recommendation = (recStatusTruthy dec).or s.recommendation := by
  rcases dec with ⟨_ | ⟨_ | l, reas⟩, _ | ⟨_ | t, reason⟩⟩ <;>
    refine ⟨?_, ?_, ?_, ?_, ?_, ?_⟩ <;>
    simp only [applyDecisions, sevLevelTruthy, recStatusTruthy] <;>
    (try split_ifs) <;> simp_all [Option.or]

theorem pollDecisionsStep_stats (r : Option Decisions) (s : AppState) :
    (pollDecisionsStep r s).stats = s.stats := by
  rcases r with _ | dec
  · rfl
  · exact (applyDecisions_fields dec s).2.1

theorem poll_effects_eq (env : PollEnv) (s : AppState) :
    (poll env s).2 = effectsOfStatus env.status := by
  simp only [poll, effectsOfStatus]
  split_ifs <;> rfl

theorem pollTrace_effects (envs : List PollEnv) (s : AppState) :
    (pollTrace envs s).2 = envs.map (fun e => effectsOfStatus e.status) := by
  induction envs generalizing s with
  | nil => rfl
  | cons e rest ih =>
    simp only [pollTrace, List.map_cons]
    rw [poll_effects_eq, ih]

theorem effectsOfStatus_nonterminal (st : String) (h : isTerminal st = false) :
    effectsOfStatus st = ⟨false, false, false⟩ := by
  simp [effectsOfStatus, h]

theorem effectsOfStatus_clears (st : String) :
    (effectsOfStatus st).clearedInterval = isTerminal st := by
  simp only [effectsOfStatus]
  split_ifs <;> simp_all

theorem effectsOfStatus_log (st : String) :
    (effectsOfStatus st).fetchedLog = (st == "completed") := by
  simp only [effectsOfStatus, isTerminal]
  split_ifs <;> simp_all

theorem effectsOfStatus_inject (st : String) :
    (effectsOfStatus st).injectedWave2 = (st == "completed") := by
  simp only [effectsOfStatus, isTerminal]
  split_ifs <;> simp_all

theorem pollTrace_countP (q : PollEffects → Bool) (envs : List PollEnv) (s : AppState) :
    ((pollTrace envs s).2).countP q =
      (envs.map (·.status)).countP (fun st => q (effectsOfStatus st)) := by
  rw [pollTrace_effects, List.countP_map, List.countP_map]
  rfl

/- ═══════════════ Claim theorems ═══════════════ -/

/-- C5: the manual run trigger (`handleRun`) synchronously resets the event
list and response list to empty, recommendation and decisions to null,
severity to the neutral `IDLE` value, and the run status to `running`, for
every prior client state — before any newly fetched data can arrive, since
these updates precede the run request and every fetch. -/
theorem handleRun_resets_before_data (s : AppState) :
    (handleRunReset s).events = [] ∧
    (handleRunReset s).responses = [] ∧
    (handleRunReset s).recommendation = none ∧
    (handleRunReset s).decisions = none ∧
    (handleRunReset s).severity = "IDLE" ∧
    (handleRunReset s).status = "running" :=
  ⟨rfl, rfl, rfl, rfl, rfl, rfl⟩

/-- C5 witness at a concrete state. -/
theorem handleRun_resets_before_data_witness :
    (handleRunReset midState).events = [] ∧ (handleRunReset midState).severity = "IDLE" :=
  ⟨(handleRun_resets_before_data midState).1,
    (handleRun_resets_before_data midState).2.2.2.2.1⟩

/-- C6: the best-effort decisions fetch inside `poll` never changes the run
status; a failed fetch (`none`) leaves the whole state — in particular
decisions, severity and recommendation — unchanged; a successful fetch
overwrites `severity` only when the fetched level is present and non-empty
(`sevLevelTruthy`) and `recommendation` only when the fetched status is
present and non-empty (`recStatusTruthy`), each otherwise keeping its prior
value (`Option.getD` / `Option.or` fall back to the prior value). -/
theorem poll_decisions_fetch_policy (s : AppState) (dec : Decisions) :
    pollDecisionsStep none s = s ∧
    (pollDecisionsStep (some dec) s).status = s.status ∧
    (pollDecisionsStep (some dec) s).severity = (sevLevelTruthy dec).getD s.severity ∧
    (pollDecisionsStep (some dec) s).recommendation =
      (recStatusTruthy dec).or s.recommendation := by
  have h := applyDecisions_fields dec s
  exact ⟨rfl, h.1, h.2.2.2.2.1, h.2.2.2.2.2⟩

/-- C7: the recommendation banner is rendered (`recCfg` is non-null) exactly
when the recommendation state is one of `ESCALATE`, `FOLLOW UP`, `RESOLVED`;
any other value — and the absent value — renders no banner. -/
theorem banner_rendered_iff_known_status (r : Option String) :
    (recCfg r).isSome = true ↔
      r = some "ESCALATE" ∨ r = some "FOLLOW UP" ∨ r = some "RESOLVED" := by
  rcases r with _ | v
  · simp [recCfg]
  · simp only [recCfg, REC_CFG, Option.some.injEq]
    split_ifs with h0 h1 h2 h3 <;> simp_all

/-- C9: the manual run trigger empties the responses list but leaves the
whole `stats` record — in particular the `responses` counter — untouched;
a poll observing a non-`completed` status never changes the counter, and the
poll observing `completed` sets it to the length of the freshly parsed log
(not an increment: the result is independent of the prior counter). -/
theorem responses_counter_frame (s : AppState) (env : PollEnv) :
    (handleRunReset s).responses = [] ∧
    (handleRunReset s).stats = s.stats ∧
    (env.status ≠ "completed" → ((poll env s).1).stats.responses = s.stats.responses) ∧
    (env.status = "completed" →
      ((poll env s).1).stats.responses = (parseResponses env.logs).length) := by
  obtain ⟨evs, st, d1, lg, d2⟩ := env
  refine ⟨rfl, rfl, ?_, ?_⟩
  · intro h
    by_cases he : st = "error"
    · subst he
      simp [poll, isTerminal, pollDecisionsStep_stats]
    · have hterm : isTerminal st = false := by
        simp [isTerminal, h, he]
      simp [poll, hterm, pollDecisionsStep_stats]
  · intro h
    subst h
    simp [poll, isTerminal, pollDecisionsStep_stats]

/-- C9 witness: with a prior counter of 5, a running-status poll keeps 5 and
the completed-status poll (whose log parses to one record) sets it to 1. -/
theorem responses_counter_frame_witness :
    ((poll envRunning midState).1).stats.responses = 5 ∧
    ((poll envDone midState).1).stats.responses = 1 := by
  have h1 := responses_counter_frame midState envRunning
  have h2 := responses_counter_frame midState envDone
  exact ⟨(h1.2.2.1 (by decide)).trans (by decide),
    (h2.2.2.2 (by decide)).trans (by decide)⟩

/-- C1 (amended): across the poll invocations of a run — interval ticks plus
the explicit poll performed after `POST /run` resolves — `clearInterval` is
called once per invocation whose fetched status is terminal, and the log
fetch and the wave-2 injection are issued once per invocation whose fetched
status is `completed`; on an admissible run the terminal status is observed
by one or two invocations (two when an interval tick reaches it and the
explicit post-`/run` poll observes it again), so the effects occur exactly
once only when exactly one invocation observes the terminal status. -/
theorem terminal_poll_effect_counts (envs : List PollEnv) (s : AppState)
    (pre : List String) (m : Nat) (t : String)
    (hpre : ∀ x ∈ pre, isTerminal x = false)
    (ht : isTerminal t = true) (_hm1 : 1 ≤ m) (_hm2 : m ≤ 2)
    (hdecomp : envs.map (·.status) = pre ++ List.replicate m t) :
    countClears (pollTrace envs s).2 = m ∧
    countLogFetches (pollTrace envs s).2 = (if t = "completed" then m else 0) ∧
    countInjects (pollTrace envs s).2 = (if t = "completed" then m else 0) := by
  have key : ∀ (q : PollEffects → Bool),
      ((pollTrace envs s).2).countP q =
        pre.countP (fun st => q (effectsOfStatus st)) +
          (if q (effectsOfStatus t) then m else 0) := by
    intro q
    rw [pollTrace_countP, hdecomp, List.countP_append, List.countP_replicate]
  have hpre0 : ∀ (q : PollEffects → Bool), q ⟨false, false, false⟩ = false →
      pre.countP (fun st => q (effectsOfStatus st)) = 0 := by
    intro q hq
    refine List.countP_eq_zero.mpr (fun x hx => ?_)
    rw [effectsOfStatus_nonterminal x (hpre x hx), hq]
    exact Bool.false_ne_true
  refine ⟨?_, ?_, ?_⟩
  · rw [countClears, key, hpre0 _ rfl, effectsOfStatus_clears, ht]
    simp
  · rw [countLogFetches, key, hpre0 _ rfl, effectsOfStatus_log]
    by_cases hc : t = "completed" <;> simp [hc]
  · rw [countInjects, key, hpre0 _ rfl, effectsOfStatus_inject]
    by_cases hc : t = "completed" <;> simp [hc]

/-- C1 witness: a run whose trace is one `running` tick followed by a single
`completed` observation clears the interval once and fetches the log once. -/
theorem terminal_poll_effect_counts_witness :
    countClears (pollTrace [envRunning, envDone] initState).2 = 1 ∧
    countLogFetches (pollTrace [envRunning, envDone] initState).2 = 1 := by
  have h := terminal_poll_effect_counts [envRunning, envDone] initState
    ["running"] 1 "completed" (by decide) (by decide) (by decide) (by decide) (by decide)
  exact ⟨h.1, h.2.1.trans (by decide)⟩

/-- C1 counterexample: the admissible trace in which an interval tick and the
explicit post-`/run` poll both observe `completed` — the typical run, since
`POST /run` blocks until the crew finishes while the 1.2s ticks keep firing —
calls `clearInterval` twice, fetches the log twice and requests the wave-2
injection twice, refuting "exactly once". -/
theorem double_completed_poll_counterexample :
    AdmissibleStatuses ([envDone, envDone].map (·.status)) ∧
    countClears (pollTrace [envDone, envDone] initState).2 = 2 ∧
    countLogFetches (pollTrace [envDone, envDone] initState).2 = 2 ∧
    countInjects (pollTrace [envDone, envDone] initState).2 = 2 ∧
    countLogFetches (pollTrace [envDone, envDone] initState).2 ≠ 1 := by
  refine ⟨⟨[], 2, "completed", ?_, ?_, ?_, ?_, ?_⟩, ?_, ?_, ?_, ?_⟩ <;> decide

theorem deliverPosts_acc (ps : List Post) (s : AppState) :
    (deliverPosts ps s).stats.tweets = s.stats.tweets + ps.length ∧
    (deliverPosts ps s).stats.reach = s.stats.reach + (ps.map postEngagement).sum ∧
    (deliverPosts ps s).tweets = s.tweets ++ ps ∧
    (deliverPosts ps s).stats.responses = s.stats.responses := by
  induction ps generalizing s with
  | nil => simp [deliverPosts]
  | cons p rest ih =>
    obtain ⟨h1, h2, h3, h4⟩ := ih (onTweet p s)
    have e : deliverPosts (p :: rest) s = deliverPosts rest (onTweet p s) := rfl
    rw [e]
    refine ⟨?_, ?_, ?_, ?_⟩
    · rw [h1]; simp only [onTweet, List.length_cons]; omega
    · rw [h2]; simp only [onTweet, List.map_cons, List.sum_cons]; omega
    · rw [h3]; simp [onTweet]
    · rw [h4]; simp [onTweet]

/-- C3: a (re)connect of the stream resets the post list and both counters;
after delivering any sequence of posts the post counter equals the number of
posts received and the reach counter equals the sum of `likes + retweets`
over them, a missing count contributing 0; each received post bumps the post
counter by one and never decreases the reach counter. -/
theorem stream_counters_coincide (s s' : AppState) (ps : List Post) (p : Post) :
    (connectStream s).tweets = [] ∧
    (connectStream s).stats.tweets = 0 ∧
    (connectStream s).stats.reach = 0 ∧
    (deliverPosts ps (connectStream s)).tweets = ps ∧
    (deliverPosts ps (connectStream s)).stats.tweets = ps.length ∧
    (deliverPosts ps (connectStream s)).stats.reach = (ps.map postEngagement).sum ∧
    (∀ u t w, postEngagement ⟨u, t, none, none, w⟩ = 0) ∧
    (onTweet p s').stats.tweets = s'.stats.tweets + 1 ∧
    s'.stats.reach ≤ (onTweet p s').stats.reach := by
  obtain ⟨h1, h2, h3, _⟩ := deliverPosts_acc ps (connectStream s)
  refine ⟨rfl, rfl, rfl, ?_, ?_, ?_, fun u t w => rfl, rfl, ?_⟩
  · rw [h3]; rfl
  · rw [h1]; simp [connectStream]
  · rw [h2]; simp [connectStream]
  · exact Nat.le_add_right _ _

theorem responseMap_foldl_aux (u : String) (rs : List RespRec) (acc : Option String) :
    rs.foldl (fun a r => if r.user = u then some r.text else a) acc =
      ((rs.reverse.find? (fun r => r.user == u)).map (fun r => r.text)).or acc := by
  induction rs generalizing acc with
  | nil => simp [Option.or]
  | cons r rest ih =>
    have e : (r :: rest).foldl (fun a x => if x.user = u then some x.text else a) acc =
        rest.foldl (fun a x => if x.user = u then some x.text else a)
          (if r.user = u then some r.text else acc) := rfl
    rw [e, ih, List.reverse_cons, List.find?_append]
    cases hfind : rest.reverse.find? (fun x => x.user == u) with
    | some x => simp [Option.or]
    | none =>
      by_cases hu : r.user = u
      · have hb : (r.user == u) = true := by simp [hu]
        simp [List.find?, hu, hb, Option.or]
      · have hb : (r.user == u) = false := by simp [hu]
        simp [List.find?, hu, hb, Option.or]

/-- C8: the reply displayed for an author handle is looked up in
`responseMap`, which maps each handle to the text of the last parsed record
with that `user` field (later `forEach` writes overwrite earlier ones), so at
most one reply per handle is displayed and the last occurrence wins. -/
theorem responseMap_last_write_wins (rs : List RespRec) (u : String) :
    responseMap rs u = (rs.reverse.find? (fun r => r.user == u)).map (fun r => r.text) := by
  have h := responseMap_foldl_aux u rs none
  rw [responseMap, h]
  cases (rs.reverse.find? (fun r => r.user == u)).map (fun r => r.text) with
  | some x => rfl
  | none => rfl

theorem completedAgents_mem_iff (events : List Event) (agent : String) :
    agent ∈ completedAgents events ↔
      ∃ e ∈ events, e.type = "agent_complete" ∧ e.agent = agent := by
  simp only [completedAgents, List.mem_map, List.mem_filter, decide_eq_true_eq]
  constructor
  · rintro ⟨e, ⟨h1, h2⟩, h3⟩; exact ⟨e, h1, h2, h3⟩
  · rintro ⟨e, h1, h2, h3⟩; exact ⟨e, ⟨h1, h2⟩, h3⟩

theorem stageState_done_iff (events : List Event) (status agent : String) :
    stageState events status agent = .done ↔
      ∃ e ∈ events, e.type = "agent_complete" ∧ e.agent = agent := by
  rw [← completedAgents_mem_iff]
  by_cases hc : agent ∈ completedAgents events
  · simp [stageState, hc]
  · by_cases ha : activeAgent events = some agent ∧ status = "running" <;>
      simp [stageState, ha, hc]

/-- C4 (amended): a pipeline stage is `done` iff a completion event names its
agent — regardless of preceding start events, and invariant under any
permutation of the event list; it is `active` iff (no completion event names
the agent — `done` takes precedence in the class cascade) and the most recent
start event names the agent and the run status is `running`; it is `pending`
iff it is neither. -/
theorem pipeline_stage_characterization (events : List Event) (status agent : String) :
    (stageState events status agent = .done ↔
      ∃ e ∈ events, e.type = "agent_complete" ∧ e.agent = agent) ∧
    (stageState events status agent = .active ↔
      (¬(∃ e ∈ events, e.type = "agent_complete" ∧ e.agent = agent) ∧
        activeAgent events = some agent ∧ status = "running")) ∧
    (stageState events status agent = .pending ↔
      (¬(∃ e ∈ events, e.type = "agent_complete" ∧ e.agent = agent) ∧
        ¬(activeAgent events = some agent ∧ status = "running"))) ∧
    (∀ events', events.Perm events' →
      (stageState events status agent = .done ↔ stageState events' status agent = .done)) := by
  have hdone := stageState_done_iff events status agent
  have hperm : ∀ events', events.Perm events' →
      (stageState events status agent = .done ↔ stageState events' status agent = .done) := by
    intro ev' hp
    rw [hdone, stageState_done_iff ev' status agent]
    constructor
    · rintro ⟨e, he, h⟩; exact ⟨e, hp.mem_iff.mp he, h⟩
    · rintro ⟨e, he, h⟩; exact ⟨e, hp.mem_iff.mpr he, h⟩
  refine ⟨hdone, ?_, ?_, hperm⟩
  · by_cases hc : agent ∈ completedAgents events
    · have h1 : stageState events status agent = .done := by simp [stageState, hc]
      have h2 := hdone.mp h1
      constructor
      · intro h; rw [h1] at h; exact absurd h (by decide)
      · rintro ⟨hn, _⟩; exact absurd h2 hn
    · have hne : ¬∃ e ∈ events, e.type = "agent_complete" ∧ e.agent = agent :=
        fun hx => hc ((completedAgents_mem_iff events agent).mpr hx)
      by_cases ha : activeAgent events = some agent ∧ status = "running"
      · have h1 : stageState events status agent = .active := by
          simp [stageState, hc, ha]
        exact ⟨fun _ => ⟨hne, ha⟩, fun _ => h1⟩
      · have h1 : stageState events status agent = .pending := by
          simp [stageState, hc, ha]
        constructor
        · intro h; rw [h1] at h; exact absurd h (by decide)
        · rintro ⟨_, hact⟩; exact absurd hact ha
  · by_cases hc : agent ∈ completedAgents events
    · have h1 : stageState events status agent = .done := by simp [stageState, hc]
      have h2 := hdone.mp h1
      constructor
      · intro h; rw [h1] at h; exact absurd h (by decide)
      · rintro ⟨hn, _⟩; exact absurd h2 hn
    · have hne : ¬∃ e ∈ events, e.type = "agent_complete" ∧ e.agent = agent :=
        fun hx => hc ((completedAgents_mem_iff events agent).mpr hx)
      by_cases ha : activeAgent events = some agent ∧ status = "running"
      · have h1 : stageState events status agent = .active := by
          simp [stageState, hc, ha]
        constructor
        · intro h; rw [h1] at h; exact absurd h (by decide)
        · rintro ⟨_, hact⟩; exact absurd ha hact
      · have h1 : stageState events status agent = .pending := by
          simp [stageState, hc, ha]
        exact ⟨fun _ => ⟨hne, ha⟩, fun _ => h1⟩

theorem all_takeWhile (p : Char → Bool) (l : List Char) :
    (l.takeWhile p).all p = true := by
  rw [List.all_eq_true]
  intro x hx
  exact List.mem_takeWhile_imp hx

theorem matchAfterTweet_shape (cs : List Char) (r : RespRec)
    (h : matchAfterTweet cs = some r) :
    r.id.data ≠ [] ∧ r.id.data.all jsDigit = true ∧
    ∃ w, r.user.data = '@' :: w ∧ w ≠ [] ∧ w.all jsWordChar = true := by
  simp only [matchAfterTweet] at h
  split at h
  · exact absurd h (by simp)
  · split at h
    · split at h
      · split at h
        · exact absurd h (by simp)
        · split at h
          · exact absurd h (by simp)
          · injection h with h2
            subst h2
            refine ⟨?_, all_takeWhile _ _, _, rfl, ?_, all_takeWhile _ _⟩
            · intro hnil
              simp only [hnil] at *
              simp_all
            · intro hnil
              simp only [hnil] at *
              simp_all
      · exact absurd h (by simp)
    · exact absurd h (by simp)

theorem findTweetMatch_shape (l : List Char) (r : RespRec)
    (h : findTweetMatch l = some r) :
    r.id.data ≠ [] ∧ r.id.data.all jsDigit = true ∧
    ∃ w, r.user.data = '@' :: w ∧ w ≠ [] ∧ w.all jsWordChar = true := by
  induction l with
  | nil => simp [findTweetMatch] at h
  | cons c rest ih =>
    rw [findTweetMatch] at h
    split at h
    · cases hm : matchAfterTweet ((c :: rest).drop 5) with
      | some r2 =>
        rw [hm] at h
        simp only at h
        injection h with h2
        exact h2 ▸ matchAfterTweet_shape _ _ hm
      | none =>
        rw [hm] at h
        simp only at h
        exact ih h
    · exact ih h

theorem parseResponses_line_pipeline (txt : String) :
    parseResponses txt = (splitNL txt.data).filterMap lineRecord := by
  by_cases h : txt = ""
  · subst h; rfl
  · rw [parseResponses, if_neg h, List.filterMap_map, List.filterMap_filter]
    rfl

/-- C4 counterexample: with a start event followed by a completion event for
the same agent and status `running`, the most recent start event names the
agent and the run is `running`, yet the stage is `done`, not `active` — the
claimed "active iff" fails right-to-left because `done` takes precedence. -/
theorem stage_active_iff_counterexample :
    activeAgent [evStartMon, evDoneMon] = some "Social Media Monitor" ∧
    stageState [evStartMon, evDoneMon] "running" "Social Media Monitor" ≠ .active ∧
    stageState [evStartMon, evDoneMon] "running" "Social Media Monitor" = .done := by
  refine ⟨?_, ?_, ?_⟩ <;> decide

/-- C4 witness: the characterization applied at a concrete event list, and
its permutation-invariance clause applied at a concrete reordering. -/
theorem pipeline_stage_characterization_witness :
    stageState [evStartMon, evDoneMon] "running" "Social Media Monitor" = .done ∧
    stageState [evDoneMon, evStartMon] "running" "Social Media Monitor" = .done := by
  have h := pipeline_stage_characterization [evStartMon, evDoneMon] "running"
    "Social Media Monitor"
  have hd : stageState [evStartMon, evDoneMon] "running" "Social Media Monitor" = .done :=
    h.1.mpr ⟨evDoneMon, by decide, by decide, by decide⟩
  exact ⟨hd,
    (h.2.2.2 [evDoneMon, evStartMon] (List.Perm.swap evDoneMon evStartMon [])).mp hd⟩

/-- C2: `parseResponses` emits, in source order, exactly one record per line
whose trimmed content begins with `TWEET` and on which the pattern succeeds
(`lineRecord` is precisely that per-line pipeline), and no record for any
other line; the cited example line parses to its record while the lowercase
variant and the variant missing the parenthesized handle parse to nothing;
every emitted id is a non-empty digit string and every emitted user an `@`
followed by a non-empty word-character string. -/
theorem parseResponses_spec :
    parseResponses "TWEET 12 (@foo_bar): Thanks for reaching out" =
        [⟨"12", "@foo_bar", "Thanks for reaching out"⟩] ∧
    parseResponses "tweet 12 (@foo_bar): Thanks for reaching out" = [] ∧
    parseResponses "TWEET 12 @foo_bar: Thanks for reaching out" = [] ∧
    parseResponses "intro\nTWEET 1 (@a): x\nnoise\nTWEET 2 (@b): y" =
        [⟨"1", "@a", "x"⟩, ⟨"2", "@b", "y"⟩] ∧
    (∀ txt, parseResponses txt = (splitNL txt.data).filterMap lineRecord) ∧
    (∀ txt r, r ∈ parseResponses txt →
      r.id.data ≠ [] ∧ r.id.data.all jsDigit = true ∧
      ∃ w, r.user.data = '@' :: w ∧ w ≠ [] ∧ w.all jsWordChar = true) := by
  refine ⟨by decide, by decide, by decide, by decide, parseResponses_line_pipeline, ?_⟩
  intro txt r hr
  rw [parseResponses_line_pipeline, List.mem_filterMap] at hr
  obtain ⟨l, _, hl⟩ := hr
  rw [lineRecord] at hl
  split at hl
  · exact findTweetMatch_shape l r hl
  · exact absurd hl (by simp)

/-- C2 witness: the record-shape clause applied to the record parsed from the
example line. -/
theorem parseResponses_spec_witness :
    ("12" : String).data ≠ [] ∧ ("12" : String).data.all jsDigit = true := by
  have h := parseResponses_spec
  have h6 := h.2.2.2.2.2 "TWEET 12 (@foo_bar): Thanks for reaching out"
    ⟨"12", "@foo_bar", "Thanks for reaching out"⟩ (by decide)
  exact ⟨h6.1, h6.2.1⟩

/-- C10: the regex match inside `parseResponses` is not anchored to the line
start: the line `TWEET log: TWEET 7 (@bob): hi` begins (trimmed) with `TWEET`
but the pattern fails at the start of the line (`anchoredTweetMatch` is
`none`), yet `parseResponses` still emits the record found at the later
occurrence of the pattern inside the line. -/
theorem parseResponses_unanchored_match :
    ("TWEET".data).isPrefixOf (jsTrim ("TWEET log: TWEET 7 (@bob): hi".data)) = true ∧
    anchoredTweetMatch ("TWEET log: TWEET 7 (@bob): hi".data) = none ∧
    parseResponses "TWEET log: TWEET 7 (@bob): hi" = [⟨"7", "@bob", "hi"⟩] := by
  refine ⟨?_, ?_, ?_⟩ <;> decide
